import Mathlib

/-!
Verification of the creator-onboarding sequencer and its per-step persistence
handlers, shallowly embedded from the access-hub sources
(`src/components/creator/CreatorOnboarding.tsx`,
`src/pages/creator/CreatorDashboard.tsx`, `Step2Specialization`,
`Step3Portfolio`, `Step5Availability`) and from the SQL schema shipped with the
repository (tables `creator_profiles`, `creator_specializations`,
`creator_portfolio`, `creator_availability`).

Each React handler becomes a pure Lean function from the component's state
(plus the outcome of the asynchronous backend call it issues, supplied as an
`Option ErrKind` argument: `none` means the call succeeded) to the next state.
The hosted database is carried inside the state as explicit row lists, and the
two boundary-call logs `stepWrites` / `completeWrites` record which persistence
calls an invocation issued, so that claims about issued writes (monotonicity,
absence of retries) are statable.
-/

namespace AccessHub

/-- Kind of a backend failure. The source never inspects the kind of a
`supabase` error object (it only tests truthiness), so handlers must be
constant in this parameter; that constancy is itself one of the spec claims. -/
inductive ErrKind
  | network
  | authorization
  | validation
deriving DecidableEq, Repr

/-- A toast notification as produced by `useToast`: whether the
`variant: "destructive"` flag was set, plus title and description. -/
structure Toast where
  destructive : Bool
  title : String
  description : String
deriving DecidableEq, Repr

/-- A row of the `creator_profiles` table, restricted to the columns the
sequencer reads or writes (`id`, `onboarding_step`, `onboarding_completed`).
`id` is the generated primary key the step tables reference. -/
structure CreatorProfile where
  id : Nat
  onboarding_step : Nat
  onboarding_completed : Bool
deriving DecidableEq, Repr

/-- Backend update `update(f).eq("id", pid)` on the `creator_profiles`
table: apply `f` to every row whose `id` equals `pid`. -/
def updateProfileRow (pid : Nat) (f : CreatorProfile → CreatorProfile) :
    List CreatorProfile → List CreatorProfile
  | [] => []
  | p :: rest => (if p.id = pid then f p else p) :: updateProfileRow pid f rest

/-- Backend select `select("*").eq("id", pid).maybeSingle()`: the first row
whose `id` equals `pid`, if any. -/
def getProfileRow (pid : Nat) : List CreatorProfile → Option CreatorProfile
  | [] => none
  | p :: rest => if p.id = pid then some p else getProfileRow pid rest

/-- State of the `CreatorOnboarding` component together with the persisted
`creator_profiles` table and two instrumentation logs.

* `currentStep` is the React `currentStep` state (the step currently shown).
* `creatorId` is the React `creatorId` state (`null` until a profile exists).
* `profilesTable` is the persisted `creator_profiles` table.
* `toasts` is the list of toast notifications shown so far.
* `stepWrites` records, in order, each `onboarding_step` value for which
  `handleNext` issued an `update` call (whether or not the call succeeded).
* `completeWrites` counts the completion updates issued by `handleComplete`.
* `exited` records whether the success path invoked the `onComplete` callback
  (which makes `CreatorDashboard` refetch the profile and re-render). -/
structure SeqState where
  currentStep : Nat
  creatorId : Option Nat
  profilesTable : List CreatorProfile
  toasts : List Toast
  stepWrites : List Nat
  completeWrites : Nat
  exited : Bool
deriving DecidableEq, Repr

/-- Toast shown when `createCreatorProfile` fails. -/
def initErrorToast : Toast :=
  { destructive := true, title := "Error",
    description := "Could not initialize your profile." }

/-- Toast shown when `handleComplete` fails. -/
def completeErrorToast : Toast :=
  { destructive := true, title := "Error",
    description := "Could not complete onboarding." }

/-- Toast shown when `handleComplete` succeeds. -/
def completeSuccessToast : Toast :=
  { destructive := false, title := "Welcome aboard!",
    description := "Your creator profile is now complete." }

/-- `createCreatorProfile` from `CreatorOnboarding.tsx`: insert a fresh
`creator_profiles` row (the schema defaults are `onboarding_step = 1`,
`onboarding_completed = false`); on failure show a destructive toast, on
success store the generated id in the `creatorId` state. `newId` stands for
the id generated by the database. -/
def createCreatorProfile (err : Option ErrKind) (newId : Nat) (s : SeqState) :
    SeqState :=
  match err with
  | some _ => { s with toasts := s.toasts ++ [initErrorToast] }
  | none =>
      { s with
        creatorId := some newId
        profilesTable := s.profilesTable ++
          [{ id := newId, onboarding_step := 1, onboarding_completed := false }] }

/-- `handleNext` from `CreatorOnboarding.tsx` (the `advance()` transition):
if `currentStep < 6`, set the local step to `currentStep + 1` and, when a
`creatorId` is present, issue `update(onboarding_step := nextStep)` on the
profile row. The result of that update is not inspected by the source: on
failure no toast is shown and the local step is not rolled back. -/
def handleNext (err : Option ErrKind) (s : SeqState) : SeqState :=
  if s.currentStep < 6 then
    let nextStep := s.currentStep + 1
    match s.creatorId with
    | some cid =>
        { s with
          currentStep := nextStep
          stepWrites := s.stepWrites ++ [nextStep]
          profilesTable :=
            match err with
            | none =>
                updateProfileRow cid
                  (fun p => { p with onboarding_step := nextStep }) s.profilesTable
            | some _ => s.profilesTable }
    | none => { s with currentStep := nextStep }
  else s

/-- `handleBack` from `CreatorOnboarding.tsx` (the `retreat()` transition):
if `currentStep > 1`, decrement the local step; no backend call is made.
At step 1 the handler does nothing (and the Back button is disabled). -/
def handleBack (s : SeqState) : SeqState :=
  if s.currentStep > 1 then { s with currentStep := s.currentStep - 1 } else s

/-- `handleComplete` from `CreatorOnboarding.tsx` (the `complete()`
transition): when a `creatorId` is present, issue a single `update` that sets
both `onboarding_completed := true` and `onboarding_step := 6` on the profile
row; on failure show a destructive toast, on success show a success toast and
invoke the `onComplete` callback. With no `creatorId` nothing happens. -/
def handleComplete (err : Option ErrKind) (s : SeqState) : SeqState :=
  match s.creatorId with
  | some cid =>
      let s1 := { s with completeWrites := s.completeWrites + 1 }
      match err with
      | some _ => { s1 with toasts := s1.toasts ++ [completeErrorToast] }
      | none =>
          { s1 with
            profilesTable :=
              updateProfileRow cid
                (fun p =>
                  { p with onboarding_completed := true, onboarding_step := 6 })
                s1.profilesTable
            toasts := s1.toasts ++ [completeSuccessToast]
            exited := true }
  | none => s

/-- What `CreatorDashboard` renders once the profile fetch has settled. -/
inductive DashboardView
  | onboarding
  | mainDashboard
deriving DecidableEq, Repr

/-- The render decision of `CreatorDashboard.tsx`: show the onboarding
sequencer if the profile is missing or `onboarding_completed` is false,
otherwise show the main dashboard. -/
def dashboardView (creatorProfile : Option CreatorProfile) : DashboardView :=
  match creatorProfile with
  | none => DashboardView.onboarding
  | some p =>
      if p.onboarding_completed then DashboardView.mainDashboard
      else DashboardView.onboarding

/-- The initial `currentStep` at mount:
`useState(creatorProfile?.onboarding_step || 1)`. A missing profile or a
falsy (zero) step yields 1. -/
def initialStep (creatorProfile : Option CreatorProfile) : Nat :=
  match creatorProfile with
  | some p => if p.onboarding_step = 0 then 1 else p.onboarding_step
  | none => 1

/-- The component state at mount, given the fetched profile (if any) and the
current `creator_profiles` table. -/
def mountState (creatorProfile : Option CreatorProfile)
    (tbl : List CreatorProfile) : SeqState :=
  { currentStep := initialStep creatorProfile
    creatorId := creatorProfile.map (fun p => p.id)
    profilesTable := tbl
    toasts := []
    stepWrites := []
    completeWrites := 0
    exited := false }

/-- A sequence of `advance()` invocations, each with its own backend
outcome. -/
def advanceSeq (errs : List (Option ErrKind)) (s : SeqState) : SeqState :=
  errs.foldl (fun st e => handleNext e st) s

/-- A sequence of `n` `retreat()` invocations. -/
def retreatSeq : Nat → SeqState → SeqState
  | 0, s => s
  | n + 1, s => retreatSeq n (handleBack s)

/-! Step 2: `Step2Specialization`. A `creator_specializations` row for a
fixed creator is a `(category, skill_level)` pair; the table has a
`UNIQUE(creator_id, category)` constraint and `skill_level` defaults to
`beginner`. -/

/-- The `skill_level` enum of the schema. -/
inductive SkillLevel
  | beginner
  | intermediate
  | expert
deriving DecidableEq, Repr

/-- An element of the component's `selectedSkills` state, and equally a
`creator_specializations` row for the fixed creator (the generated row id and
the creator id column are irrelevant to the claims and omitted). -/
structure SelectedSkill where
  category : String
  skill_level : SkillLevel
deriving DecidableEq, Repr

/-- State of `Step2Specialization`: the local `selectedSkills` list and the
persisted `creator_specializations` rows of this creator. -/
structure SpecState where
  selectedSkills : List SelectedSkill
  specRows : List SelectedSkill
  toasts : List Toast
deriving DecidableEq, Repr

/-- `toggleSpecialization` from `Step2Specialization`: if some selected skill
has this category, issue a delete of the matching rows and filter the local
list (the delete outcome is never inspected, so the local list is filtered
even when the delete failed, and no toast is shown); otherwise issue an
insert of `(specId, beginner)` and, only when the insert succeeded, append it
locally (an insert failure shows no toast either). `err` is the outcome of
whichever backend call the invocation makes. -/
def toggleSpecialization (err : Option ErrKind) (specId : String)
    (s : SpecState) : SpecState :=
  match s.selectedSkills.find? (fun sk => sk.category == specId) with
  | some _ =>
      { s with
        specRows :=
          match err with
          | none => s.specRows.filter (fun r => r.category != specId)
          | some _ => s.specRows
        selectedSkills := s.selectedSkills.filter (fun sk => sk.category != specId) }
  | none =>
      match err with
      | some _ => s
      | none =>
          { s with
            specRows := s.specRows ++ [{ category := specId, skill_level := SkillLevel.beginner }]
            selectedSkills :=
              s.selectedSkills ++ [{ category := specId, skill_level := SkillLevel.beginner }] }

/-! Step 3: `Step3Portfolio`. Bulk upload of selected files to the
`creator-portfolio` storage bucket, each successful upload followed by an
insert into the `creator_portfolio` table. -/

/-- A file from the file-input selection. -/
structure UploadFile where
  name : String
  isVideo : Bool
deriving DecidableEq, Repr

/-- A `creator_portfolio` row, restricted to the columns the component
writes (the generated id, creator id, title and description are irrelevant
to the claims). -/
structure PortfolioRow where
  file_url : String
  file_type : String
  display_order : Nat
deriving DecidableEq, Repr

/-- One selected file together with the nondeterministic inputs of its
processing: the storage path the source generates from the user id, the
clock and a random suffix (opaque here), the outcome of the storage upload,
and the outcome of the row insert (whose result the source discards). -/
structure FileUpload where
  file : UploadFile
  storagePath : String
  uploadErr : Option ErrKind
  insertErr : Option ErrKind
deriving DecidableEq, Repr

/-- State of `Step3Portfolio`: the local `portfolio` list (last fetch), the
persisted `creator_portfolio` rows of this creator, and the objects stored in
the bucket. -/
structure PortfolioState where
  portfolio : List PortfolioRow
  portfolioRows : List PortfolioRow
  storedObjects : List String
  toasts : List Toast
deriving DecidableEq, Repr

/-- Toast shown when the selection would exceed the hard cap of 10 items. -/
def tooManyFilesToast : Toast :=
  { destructive := true, title := "Too many files",
    description := "You can upload maximum 10 items." }

/-- Toast shown when the storage upload of one file fails. -/
def uploadFailedToast (name : String) : Toast :=
  { destructive := true, title := "Upload failed",
    description := "Could not upload " ++ name }

/-- The public URL `getPublicUrl` resolves for a stored object path. -/
def publicUrlFor (path : String) : String :=
  "storage/creator-portfolio/" ++ path

/-- `file.type.startsWith("video/") ? "video" : "image"`. -/
def fileTypeOf (f : UploadFile) : String :=
  if f.isVideo then "video" else "image"

/-- The `creator_portfolio` row the loop inserts for one file. `ord` is
`portfolio.length` captured before the loop, so every file of one selection
receives the same `display_order`. -/
def mkPortfolioRow (ord : Nat) (fu : FileUpload) : PortfolioRow :=
  { file_url := publicUrlFor fu.storagePath
    file_type := fileTypeOf fu.file
    display_order := ord }

/-- One iteration of the upload loop in `handleFileSelect`: on upload
failure show a destructive toast naming the file and continue; on success
store the object and issue the row insert, whose outcome is discarded (a
failed insert stores the object but creates no row and shows no toast). -/
def uploadOne (ord : Nat) (st : PortfolioState) (fu : FileUpload) :
    PortfolioState :=
  match fu.uploadErr with
  | some _ => { st with toasts := st.toasts ++ [uploadFailedToast fu.file.name] }
  | none =>
      let st1 := { st with storedObjects := st.storedObjects ++ [fu.storagePath] }
      match fu.insertErr with
      | some _ => st1
      | none => { st1 with portfolioRows := st1.portfolioRows ++ [mkPortfolioRow ord fu] }

/-- `handleFileSelect` from `Step3Portfolio`: an empty selection does
nothing; if the existing items plus the selection exceed 10, show the
hard-cap toast and return without touching storage or the table; otherwise
process each file in order and finally refetch the portfolio (modelled as
reading back the row list). -/
def handleFileSelect (files : List FileUpload) (s : PortfolioState) :
    PortfolioState :=
  if files.isEmpty then s
  else if s.portfolio.length + files.length > 10 then
    { s with toasts := s.toasts ++ [tooManyFilesToast] }
  else
    let s1 := files.foldl (uploadOne s.portfolio.length) s
    { s1 with portfolio := s1.portfolioRows }

/-! Step 5: `Step5Availability`. Seven per-weekday records, persisted through
an upsert keyed on the `UNIQUE(creator_id, day_of_week)` constraint. -/

/-- An element of the component's `availability` state. -/
structure DayAvailability where
  day_of_week : Nat
  start_time : String
  end_time : String
  is_available : Bool
deriving DecidableEq, Repr

/-- A `creator_availability` row. -/
structure AvailabilityRow where
  creator_id : Nat
  day_of_week : Nat
  start_time : String
  end_time : String
  is_available : Bool
deriving DecidableEq, Repr

/-- State of `Step5Availability`: the local per-day list and the persisted
`creator_availability` table. -/
structure AvailabilityState where
  availability : List DayAvailability
  availabilityRows : List AvailabilityRow
  toasts : List Toast
deriving DecidableEq, Repr

/-- Toast shown when the availability upsert fails. -/
def availabilityErrorToast : Toast :=
  { destructive := true, title := "Error",
    description := "Could not save availability." }

/-- The dynamic field update `updateDay(dayId, field, value)` performs on a
day record. -/
inductive DayField
  | startTime (value : String)
  | endTime (value : String)
  | isAvailable (value : Bool)
deriving DecidableEq, Repr

/-- Apply one `DayField` assignment to a day record. -/
def applyField : DayField → DayAvailability → DayAvailability
  | DayField.startTime v, a => { a with start_time := v }
  | DayField.endTime v, a => { a with end_time := v }
  | DayField.isAvailable v, a => { a with is_available := v }

/-- The local list after `updateDay` rewrites the entry for `dayId`. -/
def localAvailability (dayId : Nat) (field : DayField)
    (l : List DayAvailability) : List DayAvailability :=
  l.map (fun a => if a.day_of_week == dayId then applyField field a else a)

/-- Whether a row carries the `(creator_id, day_of_week)` conflict key. -/
def matchesKey (cid dayId : Nat) (r : AvailabilityRow) : Bool :=
  r.creator_id == cid && r.day_of_week == dayId

/-- The PostgREST upsert with `onConflict: creator_id,day_of_week` against
the `UNIQUE(creator_id, day_of_week)` constraint: replace the conflicting
row when one exists, else append the new row. -/
def upsertAvailability (row : AvailabilityRow) (tbl : List AvailabilityRow) :
    List AvailabilityRow :=
  if tbl.any (matchesKey row.creator_id row.day_of_week) then
    tbl.map (fun r => if matchesKey row.creator_id row.day_of_week r then row else r)
  else tbl ++ [row]

/-- The full `creator_availability` record `updateDay` sends to the upsert,
built from the rewritten local entry for the day. -/
def mkAvailabilityRow (creatorId dayId : Nat) (dayData : DayAvailability) :
    AvailabilityRow :=
  { creator_id := creatorId, day_of_week := dayId
    start_time := dayData.start_time, end_time := dayData.end_time
    is_available := dayData.is_available }

/-- `updateDay` from `Step5Availability`: rewrite the local entry for
`dayId`, then upsert the full (creator, day, start, end, flag) record built
from the rewritten entry; on failure show a destructive toast. When the
local list has no entry for `dayId` the handler returns early after the
local rewrite. -/
def updateDay (err : Option ErrKind) (creatorId dayId : Nat)
    (field : DayField) (s : AvailabilityState) : AvailabilityState :=
  let updated := localAvailability dayId field s.availability
  let s1 := { s with availability := updated }
  match updated.find? (fun a => a.day_of_week == dayId) with
  | none => s1
  | some dayData =>
      match err with
      | some _ => { s1 with toasts := s1.toasts ++ [availabilityErrorToast] }
      | none =>
          { s1 with
            availabilityRows :=
              upsertAvailability (mkAvailabilityRow creatorId dayId dayData)
                s1.availabilityRows }

/-! Basic lemmas about the profile table and the sequencer handlers. -/

theorem getProfileRow_updateProfileRow (pid : Nat)
    (f : CreatorProfile → CreatorProfile) (hf : ∀ p, (f p).id = p.id)
    (tbl : List CreatorProfile) :
    getProfileRow pid (updateProfileRow pid f tbl) =
      (getProfileRow pid tbl).map f := by
  induction tbl with
  | nil => rfl
  | cons p rest ih =>
      by_cases h : p.id = pid
      · simp [getProfileRow, updateProfileRow, h, hf]
      · simp [getProfileRow, updateProfileRow, h, ih]

theorem mem_updateProfileRow {q : CreatorProfile} {pid : Nat}
    {f : CreatorProfile → CreatorProfile} {tbl : List CreatorProfile}
    (hq : q ∈ updateProfileRow pid f tbl) :
    ∃ q0 ∈ tbl, q = if q0.id = pid then f q0 else q0 := by
  induction tbl with
  | nil => simp [updateProfileRow] at hq
  | cons p rest ih =>
      simp only [updateProfileRow, List.mem_cons] at hq
      rcases hq with h | h
      · exact ⟨p, List.mem_cons_self p rest, h⟩
      · obtain ⟨q0, hq0, hq0eq⟩ := ih h
        exact ⟨q0, List.mem_cons_of_mem p hq0, hq0eq⟩

theorem getProfileRow_mem {pid : Nat} {tbl : List CreatorProfile}
    {p : CreatorProfile} (h : getProfileRow pid tbl = some p) :
    p ∈ tbl ∧ p.id = pid := by
  induction tbl with
  | nil => simp [getProfileRow] at h
  | cons r rest ih =>
      by_cases hr : r.id = pid
      · simp only [getProfileRow, if_pos hr, Option.some.injEq] at h
        exact ⟨by simp [← h], h ▸ hr⟩
      · simp only [getProfileRow, if_neg hr] at h
        obtain ⟨hmem, hid⟩ := ih h
        exact ⟨List.mem_cons_of_mem r hmem, hid⟩

theorem handleNext_some_none (s : SeqState) (cid : Nat)
    (hlt : s.currentStep < 6) (hcid : s.creatorId = some cid) :
    handleNext none s =
      { s with
        currentStep := s.currentStep + 1
        stepWrites := s.stepWrites ++ [s.currentStep + 1]
        profilesTable :=
          updateProfileRow cid
            (fun p => { p with onboarding_step := s.currentStep + 1 })
            s.profilesTable } := by
  unfold handleNext
  rw [if_pos hlt, hcid]

theorem handleNext_some_err (s : SeqState) (cid : Nat) (k : ErrKind)
    (hlt : s.currentStep < 6) (hcid : s.creatorId = some cid) :
    handleNext (some k) s =
      { s with
        currentStep := s.currentStep + 1
        stepWrites := s.stepWrites ++ [s.currentStep + 1] } := by
  unfold handleNext
  rw [if_pos hlt, hcid]

theorem handleNext_none_cid (err : Option ErrKind) (s : SeqState)
    (hlt : s.currentStep < 6) (hcid : s.creatorId = none) :
    handleNext err s = { s with currentStep := s.currentStep + 1 } := by
  unfold handleNext
  rw [if_pos hlt, hcid]

theorem handleNext_of_not_lt (err : Option ErrKind) (s : SeqState)
    (h : ¬ s.currentStep < 6) : handleNext err s = s := by
  unfold handleNext
  rw [if_neg h]

theorem handleNext_creatorId (err : Option ErrKind) (s : SeqState) :
    (handleNext err s).creatorId = s.creatorId := by
  by_cases hlt : s.currentStep < 6
  · cases hcid : s.creatorId with
    | none => rw [handleNext_none_cid err s hlt hcid]; exact hcid
    | some cid =>
        cases err with
        | none => rw [handleNext_some_none s cid hlt hcid, hcid]
        | some k => rw [handleNext_some_err s cid k hlt hcid, hcid]
  · rw [handleNext_of_not_lt err s hlt]

theorem handleBack_of_gt (s : SeqState) (h : 1 < s.currentStep) :
    handleBack s = { s with currentStep := s.currentStep - 1 } := by
  unfold handleBack
  rw [if_pos h]

theorem handleBack_of_one (s : SeqState) (h : ¬ 1 < s.currentStep) :
    handleBack s = s := by
  unfold handleBack
  rw [if_neg h]

theorem handleBack_profilesTable (s : SeqState) :
    (handleBack s).profilesTable = s.profilesTable := by
  by_cases h : 1 < s.currentStep
  · rw [handleBack_of_gt s h]
  · rw [handleBack_of_one s h]

theorem retreatSeq_profilesTable (n : Nat) (s : SeqState) :
    (retreatSeq n s).profilesTable = s.profilesTable := by
  induction n generalizing s with
  | zero => rfl
  | succ m ih => rw [retreatSeq, ih, handleBack_profilesTable]

theorem handleComplete_some_none (s : SeqState) (cid : Nat)
    (hcid : s.creatorId = some cid) :
    handleComplete none s =
      { s with
        completeWrites := s.completeWrites + 1
        profilesTable :=
          updateProfileRow cid
            (fun p => { p with onboarding_completed := true, onboarding_step := 6 })
            s.profilesTable
        toasts := s.toasts ++ [completeSuccessToast]
        exited := true } := by
  unfold handleComplete
  rw [hcid]

theorem handleComplete_some_err (s : SeqState) (cid : Nat) (k : ErrKind)
    (hcid : s.creatorId = some cid) :
    handleComplete (some k) s =
      { s with
        completeWrites := s.completeWrites + 1
        toasts := s.toasts ++ [completeErrorToast] } := by
  unfold handleComplete
  rw [hcid]

/-- Example profile row: id 1, persisted step 2, not completed. -/
def profileEx : CreatorProfile :=
  { id := 1, onboarding_step := 2, onboarding_completed := false }

/-- Example sequencer state: viewing step 2 with `profileEx` persisted. -/
def seqStateEx : SeqState :=
  { currentStep := 2, creatorId := some 1, profilesTable := [profileEx]
    toasts := [], stepWrites := [], completeWrites := 0, exited := false }

/-- C1: a successful `complete()` transition from step 6 persists
`onboarding_completed = true` on the creator profile (issuing exactly one
completion update) and exits the sequencer by invoking the `onComplete`
callback, and any subsequent visit to the creator dashboard fetching that
profile renders the main dashboard rather than the onboarding sequencer. -/
theorem complete_persists_and_exits (s : SeqState) (cid : Nat)
    (p : CreatorProfile) (_hstep : s.currentStep = 6)
    (hcid : s.creatorId = some cid)
    (hp : getProfileRow cid s.profilesTable = some p) :
    getProfileRow cid (handleComplete none s).profilesTable =
      some { p with onboarding_completed := true, onboarding_step := 6 } ∧
    (handleComplete none s).exited = true ∧
    (handleComplete none s).completeWrites = s.completeWrites + 1 ∧
    dashboardView (getProfileRow cid (handleComplete none s).profilesTable) =
      DashboardView.mainDashboard := by
  have hrow : getProfileRow cid (handleComplete none s).profilesTable =
      some { p with onboarding_completed := true, onboarding_step := 6 } := by
    rw [handleComplete_some_none s cid hcid]
    have := getProfileRow_updateProfileRow cid
      (fun p => { p with onboarding_completed := true, onboarding_step := 6 })
      (fun p => rfl) s.profilesTable
    simp [this, hp]
  refine ⟨hrow, ?_, ?_, ?_⟩
  · rw [handleComplete_some_none s cid hcid]
  · rw [handleComplete_some_none s cid hcid]
  · rw [hrow]
    rfl

/-- C1 witness: the theorem applied to `seqStateEx` at step 6. -/
theorem complete_persists_and_exits_witness :
    (({ seqStateEx with currentStep := 6 } : SeqState).currentStep = 6 ∧
      ({ seqStateEx with currentStep := 6 } : SeqState).creatorId = some 1 ∧
      getProfileRow 1 ({ seqStateEx with currentStep := 6 } : SeqState).profilesTable =
        some profileEx) ∧
    (getProfileRow 1 (handleComplete none { seqStateEx with currentStep := 6 }).profilesTable =
      some { profileEx with onboarding_completed := true, onboarding_step := 6 } ∧
    (handleComplete none { seqStateEx with currentStep := 6 }).exited = true ∧
    (handleComplete none { seqStateEx with currentStep := 6 }).completeWrites =
      ({ seqStateEx with currentStep := 6 } : SeqState).completeWrites + 1 ∧
    dashboardView
      (getProfileRow 1 (handleComplete none { seqStateEx with currentStep := 6 }).profilesTable) =
      DashboardView.mainDashboard) :=
  ⟨⟨rfl, rfl, rfl⟩,
    complete_persists_and_exits { seqStateEx with currentStep := 6 } 1 profileEx
      rfl rfl rfl⟩

/-- C2: from any step 1 through 5 with a creator profile present, a
successful `advance()` moves the sequencer exactly one step forward and
persists `onboarding_step = s + 1` on the profile row; invoked at step 6,
`advance()` changes nothing. -/
theorem advance_moves_one_step (s : SeqState) (cid : Nat) (p : CreatorProfile)
    (h1 : 1 ≤ s.currentStep) (h5 : s.currentStep ≤ 5)
    (hcid : s.creatorId = some cid)
    (hp : getProfileRow cid s.profilesTable = some p) :
    (handleNext none s).currentStep = s.currentStep + 1 ∧
    getProfileRow cid (handleNext none s).profilesTable =
      some { p with onboarding_step := s.currentStep + 1 } ∧
    (∀ t : SeqState, t.currentStep = 6 → ∀ e, handleNext e t = t) := by
  have hlt : s.currentStep < 6 := by omega
  refine ⟨?_, ?_, ?_⟩
  · rw [handleNext_some_none s cid hlt hcid]
  · rw [handleNext_some_none s cid hlt hcid]
    have := getProfileRow_updateProfileRow cid
      (fun p => { p with onboarding_step := s.currentStep + 1 })
      (fun p => rfl) s.profilesTable
    simp [this, hp]
  · intro t ht e
    apply handleNext_of_not_lt
    omega

/-- C2 witness: the theorem applied to `seqStateEx` (step 2). -/
theorem advance_moves_one_step_witness :
    (1 ≤ seqStateEx.currentStep ∧ seqStateEx.currentStep ≤ 5 ∧
      seqStateEx.creatorId = some 1 ∧
      getProfileRow 1 seqStateEx.profilesTable = some profileEx) ∧
    ((handleNext none seqStateEx).currentStep = seqStateEx.currentStep + 1 ∧
    getProfileRow 1 (handleNext none seqStateEx).profilesTable =
      some { profileEx with onboarding_step := seqStateEx.currentStep + 1 } ∧
    (∀ t : SeqState, t.currentStep = 6 → ∀ e, handleNext e t = t)) :=
  ⟨⟨by decide, by decide, rfl, rfl⟩,
    advance_moves_one_step seqStateEx 1 profileEx (by decide) (by decide) rfl rfl⟩

/-- C4: from any step 2 through 6, `retreat()` moves the local view one step
back and issues no persistence write; any sequence of `retreat()` calls
leaves the persisted table (and the issued step-write log) unchanged, and at
step 1 `retreat()` is a no-op. -/
theorem retreat_is_local (s : SeqState) (h2 : 2 ≤ s.currentStep)
    (h6 : s.currentStep ≤ 6) :
    (handleBack s).currentStep = s.currentStep - 1 ∧
    (handleBack s).profilesTable = s.profilesTable ∧
    (handleBack s).stepWrites = s.stepWrites ∧
    (handleBack s).toasts = s.toasts ∧
    (∀ n, (retreatSeq n s).profilesTable = s.profilesTable) ∧
    (∀ t : SeqState, t.currentStep = 1 → handleBack t = t) := by
  have hgt : 1 < s.currentStep := by omega
  refine ⟨?_, ?_, ?_, ?_, ?_, ?_⟩
  · rw [handleBack_of_gt s hgt]
  · rw [handleBack_of_gt s hgt]
  · rw [handleBack_of_gt s hgt]
  · rw [handleBack_of_gt s hgt]
  · exact fun n => retreatSeq_profilesTable n s
  · intro t ht
    apply handleBack_of_one
    omega

/-- C4 witness: the theorem applied to `seqStateEx` (step 2). -/
theorem retreat_is_local_witness :
    (2 ≤ seqStateEx.currentStep ∧ seqStateEx.currentStep ≤ 6) ∧
    ((handleBack seqStateEx).currentStep = seqStateEx.currentStep - 1 ∧
    (handleBack seqStateEx).profilesTable = seqStateEx.profilesTable ∧
    (handleBack seqStateEx).stepWrites = seqStateEx.stepWrites ∧
    (handleBack seqStateEx).toasts = seqStateEx.toasts ∧
    (∀ n, (retreatSeq n seqStateEx).profilesTable = seqStateEx.profilesTable) ∧
    (∀ t : SeqState, t.currentStep = 1 → handleBack t = t)) :=
  ⟨⟨by decide, by decide⟩, retreat_is_local seqStateEx (by decide) (by decide)⟩

/-- C5: when the persistence call issued by `advance()` from a step below 6
fails, the local step still becomes `s + 1` while the persisted table keeps
its prior value, and no toast is shown: local and persisted state diverge
silently. -/
theorem advance_failure_diverges (s : SeqState) (cid : Nat) (k : ErrKind)
    (hlt : s.currentStep < 6) (hcid : s.creatorId = some cid) :
    (handleNext (some k) s).currentStep = s.currentStep + 1 ∧
    (handleNext (some k) s).profilesTable = s.profilesTable ∧
    (handleNext (some k) s).toasts = s.toasts := by
  rw [handleNext_some_err s cid k hlt hcid]
  exact ⟨rfl, rfl, rfl⟩

/-- C5 witness: the theorem applied to `seqStateEx` with a network failure. -/
theorem advance_failure_diverges_witness :
    (seqStateEx.currentStep < 6 ∧ seqStateEx.creatorId = some 1) ∧
    ((handleNext (some ErrKind.network) seqStateEx).currentStep =
      seqStateEx.currentStep + 1 ∧
    (handleNext (some ErrKind.network) seqStateEx).profilesTable =
      seqStateEx.profilesTable ∧
    (handleNext (some ErrKind.network) seqStateEx).toasts = seqStateEx.toasts) :=
  ⟨⟨by decide, rfl⟩,
    advance_failure_diverges seqStateEx 1 ErrKind.network (by decide) rfl⟩

/-! Monotonicity of the issued step writes (C3). -/

/-- Invariant of the sequencer state: every issued step write is bounded by
the current step, the issued write values are strictly increasing, and every
profile row matching the component's creator id sits at or below the current
step. It holds at mount and is preserved by `advance()` whatever the backend
outcomes are. -/
def SeqInv (s : SeqState) : Prop :=
  (∀ w ∈ s.stepWrites, w ≤ s.currentStep) ∧
  s.stepWrites.Pairwise (· < ·) ∧
  (∀ cid, s.creatorId = some cid →
    ∀ q ∈ s.profilesTable, q.id = cid → q.onboarding_step ≤ s.currentStep)

theorem seqInv_handleNext (err : Option ErrKind) (s : SeqState)
    (h : SeqInv s) : SeqInv (handleNext err s) := by
  obtain ⟨hw, hsort, htbl⟩ := h
  by_cases hlt : s.currentStep < 6
  · cases hcid : s.creatorId with
    | none =>
        rw [handleNext_none_cid err s hlt hcid]
        exact ⟨fun w hwm => le_trans (hw w hwm) (Nat.le_succ _), hsort,
          fun cid hc q hq hqid => le_trans (htbl cid hc q hq hqid) (Nat.le_succ _)⟩
    | some cid =>
        have hwrites : ∀ w ∈ s.stepWrites ++ [s.currentStep + 1],
            w ≤ s.currentStep + 1 := by
          intro w hwm
          rcases List.mem_append.mp hwm with h1 | h1
          · exact le_trans (hw w h1) (Nat.le_succ _)
          · simp at h1
            omega
        have hpair : (s.stepWrites ++ [s.currentStep + 1]).Pairwise (· < ·) := by
          refine List.pairwise_append.mpr ⟨hsort, List.pairwise_singleton _ _, ?_⟩
          intro a ha b hb
          simp at hb
          have := hw a ha
          omega
        cases err with
        | none =>
            rw [handleNext_some_none s cid hlt hcid]
            refine ⟨hwrites, hpair, ?_⟩
            intro cid' hc q hq hqid
            have hc2 : s.creatorId = some cid' := hc
            rw [hcid] at hc2
            have hcc : cid = cid' := Option.some.inj hc2
            subst hcc
            obtain ⟨q0, hq0mem, hq0eq⟩ := mem_updateProfileRow hq
            by_cases hid : q0.id = cid
            · rw [if_pos hid] at hq0eq
              rw [hq0eq]
            · rw [if_neg hid] at hq0eq
              rw [hq0eq] at hqid
              exact absurd hqid hid
        | some k =>
            rw [handleNext_some_err s cid k hlt hcid]
            refine ⟨hwrites, hpair, ?_⟩
            intro cid' hc q hq hqid
            have hc2 : s.creatorId = some cid' := hc
            have hq2 : q ∈ s.profilesTable := hq
            exact le_trans (htbl cid' hc2 q hq2 hqid) (Nat.le_succ _)
  · rw [handleNext_of_not_lt err s hlt]
    exact ⟨hw, hsort, htbl⟩

theorem handleNext_persisted_mono (err : Option ErrKind) (s : SeqState)
    (cid : Nat) (p : CreatorProfile) (hcid : s.creatorId = some cid)
    (hp : getProfileRow cid s.profilesTable = some p) (hinv : SeqInv s) :
    ∃ q, getProfileRow cid (handleNext err s).profilesTable = some q ∧
      p.onboarding_step ≤ q.onboarding_step := by
  obtain ⟨hw, hsort, htbl⟩ := hinv
  by_cases hlt : s.currentStep < 6
  · cases err with
    | none =>
        rw [handleNext_some_none s cid hlt hcid]
        refine ⟨{ p with onboarding_step := s.currentStep + 1 }, ?_, ?_⟩
        · have heq := getProfileRow_updateProfileRow cid
            (fun r => { r with onboarding_step := s.currentStep + 1 })
            (fun r => rfl) s.profilesTable
          show getProfileRow cid
            (updateProfileRow cid
              (fun r => { r with onboarding_step := s.currentStep + 1 })
              s.profilesTable) = _
          rw [heq, hp]
          rfl
        · obtain ⟨hmem, hid⟩ := getProfileRow_mem hp
          have hle := htbl cid hcid p hmem hid
          show p.onboarding_step ≤ s.currentStep + 1
          omega
    | some k =>
        rw [handleNext_some_err s cid k hlt hcid]
        exact ⟨p, hp, le_refl _⟩
  · rw [handleNext_of_not_lt err s hlt]
    exact ⟨p, hp, le_refl _⟩

theorem advanceSeq_cons (e : Option ErrKind) (rest : List (Option ErrKind))
    (s : SeqState) :
    advanceSeq (e :: rest) s = advanceSeq rest (handleNext e s) := rfl

theorem advanceSeq_mono (errs : List (Option ErrKind)) (s : SeqState)
    (cid : Nat) (p : CreatorProfile) (hcid : s.creatorId = some cid)
    (hp : getProfileRow cid s.profilesTable = some p) (hinv : SeqInv s) :
    SeqInv (advanceSeq errs s) ∧
    ∃ q, getProfileRow cid (advanceSeq errs s).profilesTable = some q ∧
      p.onboarding_step ≤ q.onboarding_step := by
  induction errs generalizing s p with
  | nil => exact ⟨hinv, p, hp, le_refl _⟩
  | cons e rest ih =>
      rw [advanceSeq_cons]
      obtain ⟨q, hq, hpq⟩ := handleNext_persisted_mono e s cid p hcid hp hinv
      have hcid' : (handleNext e s).creatorId = some cid := by
        rw [handleNext_creatorId, hcid]
      obtain ⟨hinv2, r, hr, hqr⟩ :=
        ih (handleNext e s) q hcid' hq (seqInv_handleNext e s hinv)
      exact ⟨hinv2, r, hr, le_trans hpq hqr⟩

/-- C3: for a mounted creator profile and any sequence of `advance()`
invocations with arbitrary backend outcomes, the `onboarding_step` values
issued by the persistence calls are monotonically non-decreasing (no
`advance()` ever writes a value smaller than a previously written one), and
the persisted step of the profile row never decreases. -/
theorem advance_writes_monotone (creatorProfile : CreatorProfile)
    (tbl : List CreatorProfile) (errs : List (Option ErrKind))
    (hp : getProfileRow creatorProfile.id tbl = some creatorProfile)
    (huniq : ∀ q ∈ tbl, q.id = creatorProfile.id → q = creatorProfile) :
    (advanceSeq errs (mountState (some creatorProfile) tbl)).stepWrites.Pairwise
      (· ≤ ·) ∧
    ∃ q, getProfileRow creatorProfile.id
        (advanceSeq errs (mountState (some creatorProfile) tbl)).profilesTable =
        some q ∧
      creatorProfile.onboarding_step ≤ q.onboarding_step := by
  have hinv : SeqInv (mountState (some creatorProfile) tbl) := by
    refine ⟨?_, ?_, ?_⟩
    · intro w hwm
      exact absurd hwm (List.not_mem_nil w)
    · exact List.Pairwise.nil
    · intro cid hc q hq hqid
      have hc2 : some creatorProfile.id = some cid := hc
      have hq2 : q ∈ tbl := hq
      rw [← Option.some.inj hc2] at hqid
      rw [huniq q hq2 hqid]
      show creatorProfile.onboarding_step ≤ initialStep (some creatorProfile)
      by_cases hz : creatorProfile.onboarding_step = 0
      · simp [initialStep, hz]
      · simp [initialStep, hz]
  have hcid : (mountState (some creatorProfile) tbl).creatorId =
      some creatorProfile.id := rfl
  have hp2 : getProfileRow creatorProfile.id
      (mountState (some creatorProfile) tbl).profilesTable = some creatorProfile := hp
  obtain ⟨⟨_, hsorted, _⟩, q, hq, hle⟩ :=
    advanceSeq_mono errs (mountState (some creatorProfile) tbl)
      creatorProfile.id creatorProfile hcid hp2 hinv
  exact ⟨hsorted.imp Nat.le_of_lt, q, hq, hle⟩

/-- C3 witness: `profileEx` mounted over a singleton table, with one
successful and one failing `advance()`. -/
theorem advance_writes_monotone_witness :
    (getProfileRow profileEx.id [profileEx] = some profileEx ∧
      ∀ q ∈ [profileEx], q.id = profileEx.id → q = profileEx) ∧
    ((advanceSeq [none, some ErrKind.network]
        (mountState (some profileEx) [profileEx])).stepWrites.Pairwise (· ≤ ·) ∧
    ∃ q, getProfileRow profileEx.id
        (advanceSeq [none, some ErrKind.network]
          (mountState (some profileEx) [profileEx])).profilesTable = some q ∧
      profileEx.onboarding_step ≤ q.onboarding_step) :=
  ⟨⟨rfl, by decide⟩,
    advance_writes_monotone profileEx [profileEx] [none, some ErrKind.network]
      rfl (by decide)⟩

/-- C10: a successful `complete()` persists `onboarding_step = 6` in the
same update that sets `onboarding_completed = true`, so afterwards the
stored step pointer equals 6 whatever value the row held before. -/
theorem complete_persists_step_six (s : SeqState) (cid : Nat)
    (p : CreatorProfile) (hcid : s.creatorId = some cid)
    (hp : getProfileRow cid s.profilesTable = some p) :
    getProfileRow cid (handleComplete none s).profilesTable =
      some { p with onboarding_completed := true, onboarding_step := 6 } := by
  rw [handleComplete_some_none s cid hcid]
  have := getProfileRow_updateProfileRow cid
    (fun p => { p with onboarding_completed := true, onboarding_step := 6 })
    (fun p => rfl) s.profilesTable
  simp [this, hp]

/-- C10 witness: the theorem applied to a profile whose stored step is 2. -/
theorem complete_persists_step_six_witness :
    (seqStateEx.creatorId = some 1 ∧
      getProfileRow 1 seqStateEx.profilesTable = some profileEx) ∧
    getProfileRow 1 (handleComplete none seqStateEx).profilesTable =
      some { profileEx with onboarding_completed := true, onboarding_step := 6 } :=
  ⟨⟨rfl, rfl⟩, complete_persists_step_six seqStateEx 1 profileEx rfl rfl⟩

/-! Step 2 toggling (C7). -/

theorem toggleSpecialization_present_none (specId : String) (s : SpecState)
    (sk0 : SelectedSkill)
    (h : s.selectedSkills.find? (fun sk => sk.category == specId) = some sk0) :
    toggleSpecialization none specId s =
      { s with
        specRows := s.specRows.filter (fun r => r.category != specId)
        selectedSkills :=
          s.selectedSkills.filter (fun sk => sk.category != specId) } := by
  unfold toggleSpecialization
  rw [h]

theorem toggleSpecialization_absent_none (specId : String) (s : SpecState)
    (h : s.selectedSkills.find? (fun sk => sk.category == specId) = none) :
    toggleSpecialization none specId s =
      { s with
        specRows :=
          s.specRows ++ [{ category := specId, skill_level := SkillLevel.beginner }]
        selectedSkills :=
          s.selectedSkills ++
            [{ category := specId, skill_level := SkillLevel.beginner }] } := by
  unfold toggleSpecialization
  rw [h]

theorem find?_category_filter (specId : String) (l : List SelectedSkill) :
    (l.filter (fun sk => sk.category != specId)).find?
      (fun sk => sk.category == specId) = none := by
  rw [List.find?_eq_none]
  intro x hx
  have hx2 := (List.mem_filter.mp hx).2
  simp only [bne_iff_ne, ne_eq] at hx2
  simp [hx2]

/-- Example Step 2 state: photography selected at expert level, local list
and persisted rows in sync. -/
def specStateEx : SpecState :=
  { selectedSkills := [{ category := "photography", skill_level := SkillLevel.expert }]
    specRows := [{ category := "photography", skill_level := SkillLevel.expert }]
    toasts := [] }

/-- C7 counterexample: starting from `{(photography, expert)}`, two
successful toggles of photography do not restore the original set of
`(category, skill_level)` pairs: the pair comes back with the default
beginner level, so the original expert pair is gone. -/
theorem toggle_twice_counterexample :
    ({ category := "photography", skill_level := SkillLevel.expert } : SelectedSkill) ∈
      specStateEx.selectedSkills ∧
    ({ category := "photography", skill_level := SkillLevel.expert } : SelectedSkill) ∉
      (toggleSpecialization none "photography"
        (toggleSpecialization none "photography" specStateEx)).selectedSkills := by
  decide

/-- C7 amended: with distinct selected categories (the shape enforced by the
`UNIQUE(creator_id, category)` constraint), two successful toggles of a
category restore the set of selected categories; they restore the selection
exactly when the category was absent, and restore the set of
`(category, skill_level)` pairs when the removed pair carried the default
beginner level (re-adding always uses beginner); when local state and
persisted rows agree beforehand they agree afterwards. -/
theorem toggle_twice_restores (specId : String) (s : SpecState)
    (hnd : (s.selectedSkills.map (fun sk => sk.category)).Nodup) :
    (∀ c, c ∈ (toggleSpecialization none specId
          (toggleSpecialization none specId s)).selectedSkills.map
            (fun sk => sk.category) ↔
        c ∈ s.selectedSkills.map (fun sk => sk.category)) ∧
    (s.selectedSkills.find? (fun sk => sk.category == specId) = none →
      (toggleSpecialization none specId
        (toggleSpecialization none specId s)).selectedSkills = s.selectedSkills) ∧
    (({ category := specId, skill_level := SkillLevel.beginner } : SelectedSkill) ∈
        s.selectedSkills →
      ∀ x, x ∈ (toggleSpecialization none specId
          (toggleSpecialization none specId s)).selectedSkills ↔
        x ∈ s.selectedSkills) ∧
    (s.specRows = s.selectedSkills →
      (toggleSpecialization none specId
          (toggleSpecialization none specId s)).specRows =
        (toggleSpecialization none specId
          (toggleSpecialization none specId s)).selectedSkills) := by
  cases h : s.selectedSkills.find? (fun sk => sk.category == specId) with
  | some sk0 =>
      have e1 := toggleSpecialization_present_none specId s sk0 h
      have e2 : toggleSpecialization none specId
          (toggleSpecialization none specId s) =
          { s with
            specRows :=
              s.specRows.filter (fun r => r.category != specId) ++
                [{ category := specId, skill_level := SkillLevel.beginner }]
            selectedSkills :=
              s.selectedSkills.filter (fun sk => sk.category != specId) ++
                [{ category := specId, skill_level := SkillLevel.beginner }] } := by
        rw [e1,
          toggleSpecialization_absent_none specId _
            (find?_category_filter specId s.selectedSkills)]
      have hsk0mem : sk0 ∈ s.selectedSkills := List.mem_of_find?_eq_some h
      have hsk0cat : sk0.category = specId := by
        have := List.find?_some h
        simpa using this
      refine ⟨?_, ?_, ?_, ?_⟩
      · intro c
        rw [e2]
        simp only [List.map_append, List.mem_append, List.mem_map,
          List.mem_filter, bne_iff_ne, ne_eq]
        constructor
        · rintro (⟨a, ⟨hamem, hacat⟩, rfl⟩ | hc)
          · exact ⟨a, hamem, rfl⟩
          · simp only [List.map_cons, List.map_nil, List.mem_cons,
              List.not_mem_nil, or_false] at hc
            obtain ⟨a, rfl, rfl⟩ := hc
            exact ⟨sk0, hsk0mem, by simp [hsk0cat]⟩
        · rintro ⟨a, hamem, rfl⟩
          by_cases hcat : a.category = specId
          · right
            simp [hcat]
          · left
            exact ⟨a, ⟨hamem, hcat⟩, rfl⟩
      · intro h0
        exact Option.noConfusion h0
      · intro hb x
        rw [e2]
        simp only [List.mem_append, List.mem_filter, bne_iff_ne, ne_eq,
          List.mem_cons, List.not_mem_nil, or_false]
        constructor
        · rintro (⟨hxmem, _⟩ | rfl)
          · exact hxmem
          · exact hb
        · intro hxmem
          by_cases hcat : x.category = specId
          · right
            exact List.inj_on_of_nodup_map hnd hxmem hb (by simpa using hcat)
          · left
            exact ⟨hxmem, hcat⟩
      · intro hsync
        rw [e2, hsync]
  | none =>
      have e1 := toggleSpecialization_absent_none specId s h
      have hfilters : ∀ l : List SelectedSkill,
          (l ++ [({ category := specId, skill_level := SkillLevel.beginner } :
              SelectedSkill)]).filter (fun sk => sk.category != specId) =
            l.filter (fun sk => sk.category != specId) := by
        intro l
        rw [List.filter_append]
        simp
      have hfind2 : ((s.selectedSkills ++
          [({ category := specId, skill_level := SkillLevel.beginner } :
            SelectedSkill)]).find? (fun sk => sk.category == specId)) =
          some ({ category := specId, skill_level := SkillLevel.beginner } :
            SelectedSkill) := by
        rw [List.find?_append, h]
        simp
      have hself : s.selectedSkills.filter (fun sk => sk.category != specId) =
          s.selectedSkills := by
        rw [List.filter_eq_self]
        intro a ha
        have := List.find?_eq_none.mp h a ha
        simpa using this
      have e2 : toggleSpecialization none specId
          (toggleSpecialization none specId s) =
          { s with
            specRows :=
              (s.specRows ++
                [({ category := specId, skill_level := SkillLevel.beginner } :
                  SelectedSkill)]).filter (fun r => r.category != specId)
            selectedSkills := s.selectedSkills } := by
        rw [e1, toggleSpecialization_present_none specId _ _ hfind2]
        congr 1
        rw [hfilters, hself]
      refine ⟨?_, ?_, ?_, ?_⟩
      · intro c
        rw [e2]
      · intro _
        rw [e2]
      · intro _ x
        rw [e2]
      · intro hsync
        rw [e2, hsync, hfilters, hself]


/-- C7 amended witness: the theorem applied to `specStateEx` (a single
selected category, so the category list is duplicate-free). -/
theorem toggle_twice_restores_witness :
    (specStateEx.selectedSkills.map (fun sk => sk.category)).Nodup ∧
    ((∀ c, c ∈ (toggleSpecialization none "photography"
          (toggleSpecialization none "photography" specStateEx)).selectedSkills.map
            (fun sk => sk.category) ↔
        c ∈ specStateEx.selectedSkills.map (fun sk => sk.category)) ∧
    (specStateEx.selectedSkills.find? (fun sk => sk.category == "photography") = none →
      (toggleSpecialization none "photography"
        (toggleSpecialization none "photography" specStateEx)).selectedSkills =
        specStateEx.selectedSkills) ∧
    (({ category := "photography", skill_level := SkillLevel.beginner } :
        SelectedSkill) ∈ specStateEx.selectedSkills →
      ∀ x, x ∈ (toggleSpecialization none "photography"
          (toggleSpecialization none "photography" specStateEx)).selectedSkills ↔
        x ∈ specStateEx.selectedSkills) ∧
    (specStateEx.specRows = specStateEx.selectedSkills →
      (toggleSpecialization none "photography"
          (toggleSpecialization none "photography" specStateEx)).specRows =
        (toggleSpecialization none "photography"
          (toggleSpecialization none "photography" specStateEx)).selectedSkills)) :=
  ⟨by decide, toggle_twice_restores "photography" specStateEx (by decide)⟩

/-! Step 3 uploads (C8). -/

theorem handleFileSelect_cap (files : List FileUpload) (s : PortfolioState)
    (hne : files.isEmpty = false)
    (hcap : s.portfolio.length + files.length > 10) :
    handleFileSelect files s = { s with toasts := s.toasts ++ [tooManyFilesToast] } := by
  unfold handleFileSelect
  rw [hne, if_neg Bool.false_ne_true, if_pos hcap]

theorem handleFileSelect_ok (files : List FileUpload) (s : PortfolioState)
    (hne : files.isEmpty = false)
    (hcap : ¬ s.portfolio.length + files.length > 10) :
    handleFileSelect files s =
      { files.foldl (uploadOne s.portfolio.length) s with
        portfolio := (files.foldl (uploadOne s.portfolio.length) s).portfolioRows } := by
  unfold handleFileSelect
  rw [hne, if_neg Bool.false_ne_true, if_neg hcap]

theorem uploadFold_portfolioRows (ord : Nat) (files : List FileUpload)
    (st : PortfolioState) (h : ∀ fu ∈ files, fu.insertErr = none) :
    (files.foldl (uploadOne ord) st).portfolioRows =
      st.portfolioRows ++
        (files.filter (fun fu => fu.uploadErr.isNone)).map (mkPortfolioRow ord) := by
  induction files generalizing st with
  | nil => simp
  | cons fu rest ih =>
      have hfu : fu.insertErr = none := h fu (List.mem_cons_self fu rest)
      have hrest : ∀ g ∈ rest, g.insertErr = none :=
        fun g hg => h g (List.mem_cons_of_mem fu hg)
      rw [List.foldl_cons, ih _ hrest]
      cases hup : fu.uploadErr with
      | some k =>
          have hrows : (uploadOne ord st fu).portfolioRows = st.portfolioRows := by
            unfold uploadOne
            rw [hup]
          rw [hrows, List.filter_cons]
          simp [hup]
      | none =>
          have hrows : (uploadOne ord st fu).portfolioRows =
              st.portfolioRows ++ [mkPortfolioRow ord fu] := by
            unfold uploadOne
            rw [hup, hfu]
          rw [hrows, List.filter_cons]
          simp [hup]

/-- C8: during portfolio upload, if the existing items plus the newly
selected files exceed the hard cap of 10, the selection is rejected with a
single error notification and neither the storage bucket, the persisted
rows, nor the displayed portfolio change; otherwise (with the row inserts
succeeding, as the source assumes by discarding their results) each
successful upload creates exactly one ordered portfolio record, in
selection order. -/
theorem portfolio_upload_cap (files : List FileUpload) (s : PortfolioState)
    (hne : files ≠ []) :
    (s.portfolio.length + files.length > 10 →
      (handleFileSelect files s).portfolioRows = s.portfolioRows ∧
      (handleFileSelect files s).storedObjects = s.storedObjects ∧
      (handleFileSelect files s).portfolio = s.portfolio ∧
      (handleFileSelect files s).toasts = s.toasts ++ [tooManyFilesToast]) ∧
    (s.portfolio.length + files.length ≤ 10 →
      (∀ fu ∈ files, fu.insertErr = none) →
      (handleFileSelect files s).portfolioRows =
        s.portfolioRows ++
          (files.filter (fun fu => fu.uploadErr.isNone)).map
            (mkPortfolioRow s.portfolio.length)) := by
  have hne2 : files.isEmpty = false := by
    cases files with
    | nil => exact absurd rfl hne
    | cons a l => rfl
  constructor
  · intro hcap
    rw [handleFileSelect_cap files s hne2 hcap]
    exact ⟨rfl, rfl, rfl, rfl⟩
  · intro hcap hins
    have hcap2 : ¬ s.portfolio.length + files.length > 10 := by omega
    rw [handleFileSelect_ok files s hne2 hcap2]
    show (files.foldl (uploadOne s.portfolio.length) s).portfolioRows = _
    exact uploadFold_portfolioRows s.portfolio.length files s hins

/-- Example upload that succeeds end to end. -/
def fileUploadEx : FileUpload :=
  { file := { name := "a.png", isVideo := false }, storagePath := "p1"
    uploadErr := none, insertErr := none }

/-- Example upload whose storage call fails. -/
def fileUploadExFail : FileUpload :=
  { file := { name := "b.mp4", isVideo := true }, storagePath := "p2"
    uploadErr := some ErrKind.network, insertErr := none }

/-- Example Step 3 state with an empty portfolio. -/
def portfolioStateEx : PortfolioState :=
  { portfolio := [], portfolioRows := [], storedObjects := [], toasts := [] }

/-- C8 witness: two files selected over an empty portfolio, one upload
succeeding and one failing, below the cap. -/
theorem portfolio_upload_cap_witness :
    ([fileUploadEx, fileUploadExFail] ≠ ([] : List FileUpload) ∧
      portfolioStateEx.portfolio.length + [fileUploadEx, fileUploadExFail].length ≤ 10 ∧
      (∀ fu ∈ [fileUploadEx, fileUploadExFail], fu.insertErr = none)) ∧
    (handleFileSelect [fileUploadEx, fileUploadExFail] portfolioStateEx).portfolioRows =
      portfolioStateEx.portfolioRows ++
        ([fileUploadEx, fileUploadExFail].filter (fun fu => fu.uploadErr.isNone)).map
          (mkPortfolioRow portfolioStateEx.portfolio.length) :=
  ⟨⟨by decide, by decide, by decide⟩,
    (portfolio_upload_cap [fileUploadEx, fileUploadExFail] portfolioStateEx
      (by decide)).2 (by decide) (by decide)⟩

/-! Step 5 availability upsert (C9). -/

theorem matchesKey_mkAvailabilityRow (creatorId dayId : Nat)
    (dayData : DayAvailability) :
    matchesKey creatorId dayId (mkAvailabilityRow creatorId dayId dayData) = true := by
  simp [matchesKey, mkAvailabilityRow]

theorem upsertAvailability_of_any_true (row : AvailabilityRow)
    (tbl : List AvailabilityRow)
    (h : tbl.any (matchesKey row.creator_id row.day_of_week) = true) :
    upsertAvailability row tbl =
      tbl.map (fun r =>
        if matchesKey row.creator_id row.day_of_week r then row else r) := by
  unfold upsertAvailability
  rw [h, if_pos rfl]

theorem upsertAvailability_of_any_false (row : AvailabilityRow)
    (tbl : List AvailabilityRow)
    (h : tbl.any (matchesKey row.creator_id row.day_of_week) = false) :
    upsertAvailability row tbl = tbl ++ [row] := by
  unfold upsertAvailability
  rw [h, if_neg Bool.false_ne_true]

theorem countP_replaceMatching (p : AvailabilityRow → Bool)
    (row : AvailabilityRow) (hrow : p row = true) (tbl : List AvailabilityRow) :
    (tbl.map (fun r => if p r then row else r)).countP p = tbl.countP p := by
  induction tbl with
  | nil => rfl
  | cons a l ih =>
      cases ha : p a
      · simp [List.countP_cons, ha, ih]
      · simp [List.countP_cons, ha, hrow, ih]

theorem filter_replaceMatching (p : AvailabilityRow → Bool)
    (row : AvailabilityRow) (hrow : p row = true) (tbl : List AvailabilityRow) :
    (tbl.map (fun r => if p r then row else r)).filter p =
      List.replicate (tbl.countP p) row := by
  induction tbl with
  | nil => rfl
  | cons a l ih =>
      cases ha : p a
      · simp [List.filter_cons, List.countP_cons, ha, ih]
      · simp [List.filter_cons, List.countP_cons, ha, hrow, ih,
          List.replicate_succ]

theorem replaceMatching_eq_self (p : AvailabilityRow → Bool)
    (row : AvailabilityRow) (tbl : List AvailabilityRow)
    (h : ∀ r ∈ tbl, p r = true → r = row) :
    tbl.map (fun r => if p r then row else r) = tbl := by
  induction tbl with
  | nil => rfl
  | cons a l ih =>
      have hl : ∀ r ∈ l, p r = true → r = row :=
        fun r hr => h r (List.mem_cons_of_mem a hr)
      cases ha : p a
      · simp [ha, ih hl]
      · have haeq : a = row := h a (List.mem_cons_self a l) ha
        simp [ha, ih hl, haeq]

theorem upsertAvailability_countP (row : AvailabilityRow)
    (tbl : List AvailabilityRow)
    (h : tbl.countP (matchesKey row.creator_id row.day_of_week) ≤ 1) :
    (upsertAvailability row tbl).countP
      (matchesKey row.creator_id row.day_of_week) = 1 := by
  have hrow : matchesKey row.creator_id row.day_of_week row = true := by
    simp [matchesKey]
  cases hany : tbl.any (matchesKey row.creator_id row.day_of_week)
  · rw [upsertAvailability_of_any_false row tbl hany, List.countP_append]
    have hz : tbl.countP (matchesKey row.creator_id row.day_of_week) = 0 :=
      List.countP_eq_zero.mpr (fun a ha hpa =>
        List.any_eq_false.mp hany a ha hpa)
    rw [hz]
    simp [List.countP_cons, hrow]
  · rw [upsertAvailability_of_any_true row tbl hany,
      countP_replaceMatching _ row hrow tbl]
    obtain ⟨x, hx, hpx⟩ := List.any_eq_true.mp hany
    have hpos : 0 < tbl.countP (matchesKey row.creator_id row.day_of_week) :=
      List.countP_pos_iff.mpr ⟨x, hx, hpx⟩
    omega

theorem upsertAvailability_filter (row : AvailabilityRow)
    (tbl : List AvailabilityRow)
    (h : tbl.countP (matchesKey row.creator_id row.day_of_week) ≤ 1) :
    (upsertAvailability row tbl).filter
      (matchesKey row.creator_id row.day_of_week) = [row] := by
  have hrow : matchesKey row.creator_id row.day_of_week row = true := by
    simp [matchesKey]
  cases hany : tbl.any (matchesKey row.creator_id row.day_of_week)
  · rw [upsertAvailability_of_any_false row tbl hany, List.filter_append]
    have hz : tbl.filter (matchesKey row.creator_id row.day_of_week) = [] :=
      List.filter_eq_nil_iff.mpr (fun a ha hpa =>
        List.any_eq_false.mp hany a ha hpa)
    rw [hz]
    simp [List.filter_cons, hrow]
  · rw [upsertAvailability_of_any_true row tbl hany,
      filter_replaceMatching _ row hrow tbl]
    obtain ⟨x, hx, hpx⟩ := List.any_eq_true.mp hany
    have hpos : 0 < tbl.countP (matchesKey row.creator_id row.day_of_week) :=
      List.countP_pos_iff.mpr ⟨x, hx, hpx⟩
    have hone : tbl.countP (matchesKey row.creator_id row.day_of_week) = 1 := by
      omega
    rw [hone]
    rfl

theorem upsertAvailability_idem (row : AvailabilityRow)
    (tbl : List AvailabilityRow)
    (h : tbl.countP (matchesKey row.creator_id row.day_of_week) ≤ 1) :
    upsertAvailability row (upsertAvailability row tbl) =
      upsertAvailability row tbl := by
  have h1 := upsertAvailability_countP row tbl h
  have hfil := upsertAvailability_filter row tbl h
  have hany2 : (upsertAvailability row tbl).any
      (matchesKey row.creator_id row.day_of_week) = true := by
    rw [List.any_eq_true]
    have hpos : 0 < (upsertAvailability row tbl).countP
        (matchesKey row.creator_id row.day_of_week) := by omega
    obtain ⟨x, hx, hpx⟩ := List.countP_pos_iff.mp hpos
    exact ⟨x, hx, hpx⟩
  rw [upsertAvailability_of_any_true row _ hany2]
  apply replaceMatching_eq_self
  intro r hr hpr
  have hrmem : r ∈ (upsertAvailability row tbl).filter
      (matchesKey row.creator_id row.day_of_week) :=
    List.mem_filter.mpr ⟨hr, hpr⟩
  rw [hfil] at hrmem
  simpa using hrmem

/-! Equation lemmas for `updateDay`. -/

theorem applyField_day_of_week (field : DayField) (a : DayAvailability) :
    (applyField field a).day_of_week = a.day_of_week := by
  cases field <;> rfl

theorem applyField_idem (field : DayField) (a : DayAvailability) :
    applyField field (applyField field a) = applyField field a := by
  cases field <;> rfl

theorem localAvailability_idem (dayId : Nat) (field : DayField)
    (l : List DayAvailability) :
    localAvailability dayId field (localAvailability dayId field l) =
      localAvailability dayId field l := by
  unfold localAvailability
  rw [List.map_map]
  apply List.map_congr_left
  intro a _
  by_cases hd : a.day_of_week == dayId
  · simp [Function.comp, hd, applyField_day_of_week, applyField_idem]
  · simp [Function.comp, hd]

theorem updateDay_found_none (creatorId dayId : Nat) (field : DayField)
    (s : AvailabilityState) (dayData : DayAvailability)
    (h : (localAvailability dayId field s.availability).find?
        (fun a => a.day_of_week == dayId) = some dayData) :
    updateDay none creatorId dayId field s =
      { s with
        availability := localAvailability dayId field s.availability
        availabilityRows :=
          upsertAvailability (mkAvailabilityRow creatorId dayId dayData)
            s.availabilityRows } := by
  simp only [updateDay]
  rw [h]

theorem updateDay_found_err (k : ErrKind) (creatorId dayId : Nat)
    (field : DayField) (s : AvailabilityState) (dayData : DayAvailability)
    (h : (localAvailability dayId field s.availability).find?
        (fun a => a.day_of_week == dayId) = some dayData) :
    updateDay (some k) creatorId dayId field s =
      { s with
        availability := localAvailability dayId field s.availability
        toasts := s.toasts ++ [availabilityErrorToast] } := by
  simp only [updateDay]
  rw [h]

theorem updateDay_nofind (err : Option ErrKind) (creatorId dayId : Nat)
    (field : DayField) (s : AvailabilityState)
    (h : (localAvailability dayId field s.availability).find?
        (fun a => a.day_of_week == dayId) = none) :
    updateDay err creatorId dayId field s =
      { s with availability := localAvailability dayId field s.availability } := by
  simp only [updateDay]
  rw [h]

/-- C9: with the `(creator, day)` key unique in the stored table (as the
schema constraint guarantees), applying the same `updateDay` upsert twice
with identical arguments leaves the table exactly as after the first
application, and that table holds exactly one record for the key, carrying
the upserted `(start, end, flag)` values. -/
theorem availability_upsert_idempotent (creatorId dayId : Nat)
    (field : DayField) (s : AvailabilityState) (dayData : DayAvailability)
    (hfind : (localAvailability dayId field s.availability).find?
        (fun a => a.day_of_week == dayId) = some dayData)
    (hcount : s.availabilityRows.countP (matchesKey creatorId dayId) ≤ 1) :
    (updateDay none creatorId dayId field
        (updateDay none creatorId dayId field s)).availabilityRows =
      (updateDay none creatorId dayId field s).availabilityRows ∧
    (updateDay none creatorId dayId field s).availabilityRows.filter
        (matchesKey creatorId dayId) =
      [mkAvailabilityRow creatorId dayId dayData] ∧
    (updateDay none creatorId dayId field s).availabilityRows.countP
        (matchesKey creatorId dayId) = 1 := by
  have eq1 := updateDay_found_none creatorId dayId field s dayData hfind
  have s1avail : (updateDay none creatorId dayId field s).availability =
      localAvailability dayId field s.availability := by
    rw [eq1]
  have s1rows : (updateDay none creatorId dayId field s).availabilityRows =
      upsertAvailability (mkAvailabilityRow creatorId dayId dayData)
        s.availabilityRows := by
    rw [eq1]
  have hfind2 : (localAvailability dayId field
      (updateDay none creatorId dayId field s).availability).find?
        (fun a => a.day_of_week == dayId) = some dayData := by
    rw [s1avail, localAvailability_idem]
    exact hfind
  have eq2 := updateDay_found_none creatorId dayId field
    (updateDay none creatorId dayId field s) dayData hfind2
  have hcount2 : s.availabilityRows.countP
      (matchesKey (mkAvailabilityRow creatorId dayId dayData).creator_id
        (mkAvailabilityRow creatorId dayId dayData).day_of_week) ≤ 1 := hcount
  refine ⟨?_, ?_, ?_⟩
  · rw [eq2]
    show upsertAvailability (mkAvailabilityRow creatorId dayId dayData)
        (updateDay none creatorId dayId field s).availabilityRows = _
    rw [s1rows]
    exact upsertAvailability_idem (mkAvailabilityRow creatorId dayId dayData)
      s.availabilityRows hcount2
  · rw [s1rows]
    exact upsertAvailability_filter (mkAvailabilityRow creatorId dayId dayData)
      s.availabilityRows hcount2
  · rw [s1rows]
    exact upsertAvailability_countP (mkAvailabilityRow creatorId dayId dayData)
      s.availabilityRows hcount2

/-- Example Step 5 state: the default local list restricted to Tuesday, with
nothing persisted yet. -/
def availabilityStateEx : AvailabilityState :=
  { availability :=
      [{ day_of_week := 2, start_time := "09:00", end_time := "18:00",
         is_available := true }]
    availabilityRows := []
    toasts := [] }

/-- C9 witness: switching Tuesday off twice over an empty table. -/
theorem availability_upsert_idempotent_witness :
    ((localAvailability 2 (DayField.isAvailable false)
        availabilityStateEx.availability).find?
          (fun a => a.day_of_week == 2) =
        some { day_of_week := 2, start_time := "09:00", end_time := "18:00",
               is_available := false } ∧
      availabilityStateEx.availabilityRows.countP (matchesKey 1 2) ≤ 1) ∧
    ((updateDay none 1 2 (DayField.isAvailable false)
        (updateDay none 1 2 (DayField.isAvailable false)
          availabilityStateEx)).availabilityRows =
      (updateDay none 1 2 (DayField.isAvailable false)
        availabilityStateEx).availabilityRows ∧
    (updateDay none 1 2 (DayField.isAvailable false)
        availabilityStateEx).availabilityRows.filter (matchesKey 1 2) =
      [mkAvailabilityRow 1 2
        { day_of_week := 2, start_time := "09:00", end_time := "18:00",
          is_available := false }] ∧
    (updateDay none 1 2 (DayField.isAvailable false)
        availabilityStateEx).availabilityRows.countP (matchesKey 1 2) = 1) :=
  ⟨⟨by decide, by decide⟩,
    availability_upsert_idempotent 1 2 (DayField.isAvailable false)
      availabilityStateEx
      { day_of_week := 2, start_time := "09:00", end_time := "18:00",
        is_available := false }
      (by decide) (by decide)⟩

/-! Failure surfacing across the persistence and storage boundary (C6). -/

theorem handleNext_toasts (err : Option ErrKind) (s : SeqState) :
    (handleNext err s).toasts = s.toasts := by
  by_cases hlt : s.currentStep < 6
  · cases hcid : s.creatorId with
    | none => rw [handleNext_none_cid err s hlt hcid]
    | some cid =>
        cases err with
        | none => rw [handleNext_some_none s cid hlt hcid]
        | some k => rw [handleNext_some_err s cid k hlt hcid]
  · rw [handleNext_of_not_lt err s hlt]

theorem handleNext_kind (k k' : ErrKind) (s : SeqState) :
    handleNext (some k) s = handleNext (some k') s := by
  by_cases hlt : s.currentStep < 6
  · cases hcid : s.creatorId with
    | none =>
        rw [handleNext_none_cid (some k) s hlt hcid,
          handleNext_none_cid (some k') s hlt hcid]
    | some cid =>
        rw [handleNext_some_err s cid k hlt hcid,
          handleNext_some_err s cid k' hlt hcid]
  · rw [handleNext_of_not_lt (some k) s hlt,
      handleNext_of_not_lt (some k') s hlt]

theorem handleComplete_none_cid (err : Option ErrKind) (s : SeqState)
    (h : s.creatorId = none) : handleComplete err s = s := by
  unfold handleComplete
  rw [h]

theorem toggleSpecialization_toasts (err : Option ErrKind) (specId : String)
    (s : SpecState) : (toggleSpecialization err specId s).toasts = s.toasts := by
  unfold toggleSpecialization
  cases h : s.selectedSkills.find? (fun sk => sk.category == specId) <;>
    cases err <;> rfl

theorem toggleSpecialization_kind (k k' : ErrKind) (specId : String)
    (s : SpecState) :
    toggleSpecialization (some k) specId s =
      toggleSpecialization (some k') specId s := by
  unfold toggleSpecialization
  cases h : s.selectedSkills.find? (fun sk => sk.category == specId) <;> rfl

/-- C6 counterexample: a failing `advance()` persistence call is a failure
returned from the persistence boundary (the step-write was issued, as the
grown write log shows), yet it is surfaced by no notification at all - the
toast list stays empty. So not every boundary failure is surfaced to the
user as a visible notification. -/
theorem failure_surfacing_counterexample :
    (handleNext (some ErrKind.network) seqStateEx).stepWrites ≠
      seqStateEx.stepWrites ∧
    (handleNext (some ErrKind.network) seqStateEx).toasts = [] := by
  decide

/-- C6 amended: failures of the boundary calls whose results the source
checks (profile creation, onboarding completion, the per-file storage
upload, the availability upsert) are surfaced as exactly one generic
destructive toast whose content does not depend on the kind of failure, and
no call is retried (one boundary call per invocation, as the write logs
show); but the failures whose results the source discards - the `advance()`
step write, the specialization insert and delete, and the portfolio record
insert - produce no notification at all, and every handler returns normally
on failure (no failure is fatal). -/
theorem failure_surfacing (k k' : ErrKind) :
    (∀ s : SeqState,
      (handleNext (some k) s).toasts = s.toasts ∧
      handleNext (some k) s = handleNext (some k') s) ∧
    (∀ s : SeqState,
      (handleComplete (some k) s).toasts =
        s.toasts ++ (if s.creatorId.isSome then [completeErrorToast] else []) ∧
      (handleComplete (some k) s).profilesTable = s.profilesTable ∧
      (handleComplete (some k) s).completeWrites =
        s.completeWrites + (if s.creatorId.isSome then 1 else 0) ∧
      (handleComplete (some k) s).exited = s.exited ∧
      handleComplete (some k) s = handleComplete (some k') s) ∧
    (∀ (newId : Nat) (s : SeqState),
      (createCreatorProfile (some k) newId s).toasts =
        s.toasts ++ [initErrorToast] ∧
      createCreatorProfile (some k) newId s =
        createCreatorProfile (some k') newId s) ∧
    (∀ (specId : String) (ss : SpecState),
      (toggleSpecialization (some k) specId ss).toasts = ss.toasts ∧
      toggleSpecialization (some k) specId ss =
        toggleSpecialization (some k') specId ss) ∧
    (∀ (ord : Nat) (st : PortfolioState) (f : UploadFile) (path : String)
        (ie : Option ErrKind),
      (uploadOne ord st
          { file := f, storagePath := path, uploadErr := some k,
            insertErr := ie }).toasts =
        st.toasts ++ [uploadFailedToast f.name] ∧
      (uploadOne ord st
          { file := f, storagePath := path, uploadErr := some k,
            insertErr := ie }).portfolioRows = st.portfolioRows ∧
      uploadOne ord st
          { file := f, storagePath := path, uploadErr := some k,
            insertErr := ie } =
        uploadOne ord st
          { file := f, storagePath := path, uploadErr := some k',
            insertErr := ie } ∧
      (uploadOne ord st
          { file := f, storagePath := path, uploadErr := none,
            insertErr := some k }).toasts = st.toasts ∧
      (uploadOne ord st
          { file := f, storagePath := path, uploadErr := none,
            insertErr := some k }).portfolioRows = st.portfolioRows ∧
      uploadOne ord st
          { file := f, storagePath := path, uploadErr := none,
            insertErr := some k } =
        uploadOne ord st
          { file := f, storagePath := path, uploadErr := none,
            insertErr := some k' }) ∧
    (∀ (creatorId dayId : Nat) (field : DayField) (a : AvailabilityState),
      (updateDay (some k) creatorId dayId field a).toasts =
        a.toasts ++
          (if ((localAvailability dayId field a.availability).find?
              (fun d => d.day_of_week == dayId)).isSome
            then [availabilityErrorToast] else []) ∧
      (updateDay (some k) creatorId dayId field a).availabilityRows =
        a.availabilityRows ∧
      updateDay (some k) creatorId dayId field a =
        updateDay (some k') creatorId dayId field a) ∧
    (∀ s : SeqState,
      (handleNext (some k) s).stepWrites = s.stepWrites ∨
      (handleNext (some k) s).stepWrites = s.stepWrites ++ [s.currentStep + 1]) := by
  refine ⟨?_, ?_, ?_, ?_, ?_, ?_, ?_⟩
  · intro s
    exact ⟨handleNext_toasts (some k) s, handleNext_kind k k' s⟩
  · intro s
    cases hcid : s.creatorId with
    | none =>
        rw [handleComplete_none_cid (some k) s hcid,
          handleComplete_none_cid (some k') s hcid]
        simp
    | some cid =>
        rw [handleComplete_some_err s cid k hcid,
          handleComplete_some_err s cid k' hcid]
        simp
  · intro newId s
    exact ⟨rfl, rfl⟩
  · intro specId ss
    exact ⟨toggleSpecialization_toasts (some k) specId ss,
      toggleSpecialization_kind k k' specId ss⟩
  · intro ord st f path ie
    exact ⟨rfl, rfl, rfl, rfl, rfl, rfl⟩
  · intro creatorId dayId field a
    cases hf : (localAvailability dayId field a.availability).find?
        (fun d => d.day_of_week == dayId) with
    | none =>
        rw [updateDay_nofind (some k) creatorId dayId field a hf,
          updateDay_nofind (some k') creatorId dayId field a hf]
        simp
    | some dayData =>
        rw [updateDay_found_err k creatorId dayId field a dayData hf,
          updateDay_found_err k' creatorId dayId field a dayData hf]
        simp
  · intro s
    by_cases hlt : s.currentStep < 6
    · cases hcid : s.creatorId with
      | none =>
          left
          rw [handleNext_none_cid (some k) s hlt hcid]
      | some cid =>
          right
          rw [handleNext_some_err s cid k hlt hcid]
    · left
      rw [handleNext_of_not_lt (some k) s hlt]

end AccessHub
